import Mathlib

/-!
Shallow embedding of `packages/node-core/src/indexer/blockDispatcher/worker-block-dispatcher.ts`.

The dispatcher coordinates a pool of workers: `enqueueBlocks` validates a batch of
heights, picks one worker via `getNextWorkerIndex`, assigns each height with
`enqueueBlock` (which captures a fencing token and submits a processing task to the
bounded queue), and finally updates the shared latest-buffered-height counter.
`onApplicationShutdown` sets the shutdown flag, aborts the queue and terminates the
workers.  The deferred `processBlock` closure awaits the fetch, performs the fencing
check, runs the pre-processing hook, the worker's `processBlock` call and the
post-processing hook, and classifies exceptions (task-flushed / block-unavailable are
swallowed, anything else is logged and terminates the process).

Effectful calls are modelled as explicit event traces; the outcome of each external
call (fetch, hooks, worker process) is an input of the model.  The random draw of the
load balancer (`Math.floor(Math.random() * lowest.length)`) is modelled as a natural
number argument `rand`, in range when `rand < lowest.length`.
-/

namespace WorkerDispatch

/-- Header metadata returned by a worker's fetch (`Header` in `../types`);
only its height matters to the dispatcher logic. -/
structure Header where
  height : Nat
deriving DecidableEq, Inhabited

/-- Result of `worker.processBlock` (`ProcessBlockResponse` in `base-block-dispatcher.ts`). -/
structure ProcessBlockResponse where
  dynamicDsCreated : Bool
  reindexBlockHeader : Option Header
deriving DecidableEq, Inhabited

/-- `WorkerStatusResponse`: the worker thread id and its backlog (`toFetchBlocks`). -/
structure WorkerStatusResponse where
  threadId : Nat
  toFetchBlocks : Nat
deriving DecidableEq, Inhabited

/-- JavaScript exceptions reaching the dispatcher, classified the way the code
classifies them: `isTaskFlushedError`, `isBlockUnavailableError`, anything else. -/
inductive JsError where
  | taskFlushed
  | blockUnavailable
  | other (msg : String)
deriving DecidableEq, Inhabited

/-- `isTaskFlushedError` from `../../utils` (external classifier). -/
def isTaskFlushedError : JsError → Bool
  | .taskFlushed => true
  | _ => false

/-- `isBlockUnavailableError` from `../worker/utils` (external classifier). -/
def isBlockUnavailableError : JsError → Bool
  | .blockUnavailable => true
  | _ => false

/-- An element of the `heights` argument of `enqueueBlocks`: either a number
(a height) or a pre-materialized block payload (`IBlock<B>`, kept opaque). -/
inductive WorkItem where
  | num (height : Nat)
  | block (payload : Nat)
deriving DecidableEq, Inhabited

/-- `typeof h === 'number'` on a work item. -/
def isNum : WorkItem → Bool
  | .num _ => true
  | .block _ => false

/-- The `height as number` cast performed after the all-numbers assertion. -/
def theNum : WorkItem → Nat
  | .num h => h
  | .block _ => 0

/-- Observable calls the dispatcher makes while assigning work or shutting down. -/
inductive Event where
  | fetchStart (workerIdx : Nat) (height : Nat)
  | terminate (workerIdx : Nat)
  | emitQueueSize
deriving DecidableEq

/-- A processing task submitted to the bounded queue: the height, the chosen
worker index and the fencing token `bufferedHeight` captured at submission. -/
structure Submission where
  height : Nat
  workerIdx : Nat
  fenceAtSubmit : Nat
deriving DecidableEq

/-- The dispatcher's mutable fields used by these methods. -/
structure DState where
  isShutdown : Bool
  queueAborted : Bool
  latestBufferedHeight : Nat
  numWorkers : Nat
deriving DecidableEq

/-- Constructor arguments of the bounded `AutoQueue`. -/
structure AutoQueueConfig where
  capacity : Int
  concurrency : Int
  timeout : Option Nat
  name : Option String
deriving DecidableEq

/-- `initAutoQueue`: asserts `workers && workers > 0`, then builds
`new AutoQueue(workers * batchSize * 2, 1, timeout, name)`.  `workers` is `Option`
because `nodeConfig.workers` may be undefined; JavaScript truthiness makes the
assert fail for `0` and the comparison fail for negative values. -/
def initAutoQueue (workers : Option Int) (batchSize : Int) (timeout : Option Nat)
    (name : Option String) : Except String AutoQueueConfig :=
  match workers with
  | none => .error "Number of workers must be greater than 0"
  | some w =>
    if w > 0 then .ok ⟨w * batchSize * 2, 1, timeout, name⟩
    else .error "Number of workers must be greater than 0"

/-- `Math.min(...statuses.map((s) => s.toFetchBlocks))` (for a non-empty pool). -/
def minBacklog (statuses : List WorkerStatusResponse) : Nat :=
  match statuses.map (fun s => s.toFetchBlocks) with
  | [] => 0
  | x :: xs => xs.foldl Nat.min x

/-- `getNextWorkerIndex`: filter the statuses with the minimum backlog, pick the
`rand`-th of them (`rand` models `Math.floor(Math.random() * lowest.length)`) and
return `threadId - 1`.  `none` models the out-of-range access that would throw. -/
def getNextWorkerIndex (statuses : List WorkerStatusResponse) (rand : Nat) :
    Option Nat :=
  ((statuses.filter (fun s => s.toFetchBlocks == minBacklog statuses)).get?
    rand).map (fun s => s.threadId - 1)

/-- Pool indices holding the minimum backlog: the set the spec says the load
balancer draws from uniformly. -/
def tiedIndices (statuses : List WorkerStatusResponse) : List Nat :=
  (List.range statuses.length).filter
    (fun i => (statuses.getD i default).toFetchBlocks == minBacklog statuses)

/-- `enqueueBlock(height, workerIdx)`: no-op when shut down; asserts the worker
exists; captures the fencing token (`bufferedHeight = this.latestBufferedHeight`),
starts the fetch and submits the processing task to the queue.  It never mutates
the dispatcher state. -/
def enqueueBlock (s : DState) (height : Nat) (workerIdx : Nat) :
    Except String (List Event × List Submission) :=
  if s.isShutdown then .ok ([], [])
  else if workerIdx < s.numWorkers then
    .ok ([.fetchStart workerIdx height], [⟨height, workerIdx, s.latestBufferedHeight⟩])
  else .error "Worker not found"

/-- The `heights.map((height) => this.enqueueBlock(height, workerIdx))` loop.
`enqueueBlock`'s outcome does not depend on the height, so a thrown assertion can
only happen at the first iteration and no partial effects are lost. -/
def enqueueAll (s : DState) (hs : List Nat) (workerIdx : Nat) :
    Except String (List Event × List Submission) :=
  match hs with
  | [] => .ok ([], [])
  | h :: rest =>
    match enqueueBlock s h workerIdx with
    | .error msg => .error msg
    | .ok (evs, subs) =>
      match enqueueAll s rest workerIdx with
      | .error msg => .error msg
      | .ok (evs2, subs2) => .ok (evs ++ evs2, subs ++ subs2)

/-- `enqueueBlocks(heights, latestBufferHeight)`: assert all items are numbers;
if `!!latestBufferHeight && !heights.length` replace the batch by
`[latestBufferHeight]`; consult the load balancer once (the active branch of the
constant condition); enqueue every height to that worker; finally run the
`latestBufferedHeight` setter with `latestBufferHeight ?? last(heights) ?? old`
(the setter also emits the queue-size event). -/
def enqueueBlocks (s : DState) (statuses : List WorkerStatusResponse) (rand : Nat)
    (heights : List WorkItem) (latestBufferHeight : Option Nat) :
    Except String (DState × List Event × List Submission) :=
  if heights.all isNum then
    let heightsB : List WorkItem :=
      match latestBufferHeight with
      | some n => if n ≠ 0 ∧ heights.isEmpty then [WorkItem.num n] else heights
      | none => heights
    match getNextWorkerIndex statuses rand with
    | none => .error "getNextWorkerIndex out of range"
    | some workerIdx =>
      match enqueueAll s (heightsB.map theNum) workerIdx with
      | .error msg => .error msg
      | .ok (evs, subs) =>
        let newHeight : Nat :=
          match latestBufferHeight with
          | some n => n
          | none =>
            match (heightsB.map theNum).getLast? with
            | some h => h
            | none => s.latestBufferedHeight
        .ok ({s with latestBufferedHeight := newHeight},
             evs ++ [Event.emitQueueSize], subs)
  else .error "Worker block dispatcher only supports enqueuing numbers, not blocks."

/-- `onApplicationShutdown`: set the shutdown flag, abort the queue, terminate
every worker (concurrently; modelled as one terminate event per pool index). -/
def onApplicationShutdown (s : DState) : DState × List Event :=
  ({s with isShutdown := true, queueAborted := true},
   (List.range s.numWorkers).map Event.terminate)

/-- Observable steps of the deferred `processBlock` closure built by `enqueueBlock`:
hook invocations, the monitor write, the worker's process call, error logging and
the `process.exit(1)` request. -/
inductive TaskEvent where
  | preProcess (header : Header)
  | monitorWrite (workerIdx : Nat)
  | workerProcess (workerIdx : Nat) (height : Nat)
  | postProcess (header : Header) (resp : ProcessBlockResponse)
  | logError (height : Nat)
  | processExit (code : Nat)
deriving DecidableEq

/-- Steps the `catch` block of the `processBlock` closure takes for exception `e`:
task-flushed and block-unavailable return silently, anything else is logged with
the height and the process exits with status 1. -/
def catchHandler (height : Nat) (e : JsError) : List TaskEvent :=
  if isTaskFlushedError e then []
  else if isBlockUnavailableError e then []
  else [.logError height, .processExit 1]

/-- The deferred `processBlock` closure of `enqueueBlock`, run later by the queue.
It awaits the fetch (`fetchResult`), performs the fencing check
`bufferedHeight > this.latestBufferedHeight` (with `fenceAtSubmit` the captured
token and `currentLBH` the counter when the task runs), then invokes the
pre-processing hook, the monitor write, `worker.processBlock(height)` and the
post-processing hook; its `try/catch` is `catchHandler`.  The outcome of each
external call is an input; the value is the trace of observable steps. -/
def processBlockTask (workerIdx height fenceAtSubmit currentLBH : Nat)
    (fetchResult : Except JsError Header)
    (preResult : Header → Except JsError Unit)
    (procResult : Except JsError ProcessBlockResponse)
    (postResult : Header → ProcessBlockResponse → Except JsError Unit) :
    List TaskEvent :=
  match fetchResult with
  | .error e => catchHandler height e
  | .ok header =>
    if fenceAtSubmit > currentLBH then []
    else
      match preResult header with
      | .error e => .preProcess header :: catchHandler height e
      | .ok _ =>
        match procResult with
        | .error e =>
          .preProcess header :: .monitorWrite workerIdx ::
            .workerProcess workerIdx height :: catchHandler height e
        | .ok resp =>
          match postResult header resp with
          | .error e =>
            .preProcess header :: .monitorWrite workerIdx ::
              .workerProcess workerIdx height :: .postProcess header resp ::
                catchHandler height e
          | .ok _ =>
            [.preProcess header, .monitorWrite workerIdx,
             .workerProcess workerIdx height, .postProcess header resp]

/-- The exception, if any, that escapes the `try` block of the task body, given
the outcome of each stage; mirrors the control flow of `processBlockTask`. -/
def thrownError (fenceAtSubmit currentLBH : Nat)
    (fetchResult : Except JsError Header)
    (preResult : Header → Except JsError Unit)
    (procResult : Except JsError ProcessBlockResponse)
    (postResult : Header → ProcessBlockResponse → Except JsError Unit) :
    Option JsError :=
  match fetchResult with
  | .error e => some e
  | .ok header =>
    if fenceAtSubmit > currentLBH then none
    else
      match preResult header with
      | .error e => some e
      | .ok _ =>
        match procResult with
        | .error e => some e
        | .ok resp =>
          match postResult header resp with
          | .error e => some e
          | .ok _ => none

/-- An exception the task treats as expected and swallows. -/
def isSwallowed (e : JsError) : Bool :=
  isTaskFlushedError e || isBlockUnavailableError e

/-- The value `latestBufferHeight ?? last(heights) ?? old` the counter is set to,
stated from the spec's wording over the original (pre-bypass) batch. -/
def specNewBufferedHeight (old : Nat) (heights : List WorkItem)
    (latestBufferHeight : Option Nat) : Nat :=
  match latestBufferHeight with
  | some n => n
  | none =>
    match (heights.map theNum).getLast? with
    | some h => h
    | none => old

/-- The submissions an `enqueueBlocks` run handed to the bounded queue. -/
def subsOf (r : Except String (DState × List Event × List Submission)) :
    List Submission :=
  match r with
  | .ok (_, _, subs) => subs
  | .error _ => []

/-- The dispatcher state after an `enqueueBlocks` run, when it succeeded. -/
def stateOf (r : Except String (DState × List Event × List Submission)) :
    Option DState :=
  match r with
  | .ok (st, _, _) => some st
  | .error _ => none

/-! ### Helper lemmas -/

/-- Terminating the pool emits one terminate event per pool index. -/
lemma count_terminate_range (n w : Nat) :
    ((List.range n).map Event.terminate).count (Event.terminate w) =
      if w < n then 1 else 0 := by
  induction n with
  | zero => simp
  | succ n ih =>
    rw [List.range_succ, List.map_append, List.count_append, ih]
    simp only [List.map_cons, List.map_nil, List.count_cons, List.count_nil]
    by_cases h : w = n
    · subst h
      simp
    · have hb : (Event.terminate n == Event.terminate w) = false := by
        simp only [beq_eq_false_iff_ne, ne_eq, Event.terminate.injEq]
        omega
      rw [hb]
      simp only [Bool.false_eq_true, if_false, Nat.add_zero, Nat.zero_add]
      by_cases h2 : w < n
      · rw [if_pos h2, if_pos (show w < n + 1 by omega)]
      · rw [if_neg h2, if_neg (show ¬w < n + 1 by omega)]

/-- When the dispatcher is running and the worker exists, the assignment loop
assigns every height, in order, to that worker, with the current counter value
as fencing token. -/
lemma enqueueAll_ok (s : DState) (hs : List Nat) (workerIdx : Nat)
    (hrun : s.isShutdown = false) (hwi : workerIdx < s.numWorkers) :
    enqueueAll s hs workerIdx =
      .ok (hs.map (fun h => Event.fetchStart workerIdx h),
           hs.map (fun h => ⟨h, workerIdx, s.latestBufferedHeight⟩)) := by
  induction hs with
  | nil => simp [enqueueAll]
  | cons h rest ih => simp [enqueueAll, enqueueBlock, hrun, hwi, ih]

/-- After shutdown the assignment loop does nothing. -/
lemma enqueueAll_shutdown (s : DState) (hs : List Nat) (workerIdx : Nat)
    (hrun : s.isShutdown = true) :
    enqueueAll s hs workerIdx = .ok ([], []) := by
  induction hs with
  | nil => simp [enqueueAll]
  | cons h rest ih => simp [enqueueAll, enqueueBlock, hrun, ih]

/-! ### Claim theorems -/

/-- C1: a unit of work assigned while the dispatcher runs carries the fencing
token captured from the latest-buffered-height counter at assignment time, and
when that token is strictly greater than the counter at the moment the task
executes, the task returns an empty trace: no pre-processing hook, no worker
process call, no post-processing hook. -/
theorem fencing_discards_stale (s : DState) (height workerIdx currentLBH : Nat)
    (header : Header) (preResult : Header → Except JsError Unit)
    (procResult : Except JsError ProcessBlockResponse)
    (postResult : Header → ProcessBlockResponse → Except JsError Unit)
    (hrun : s.isShutdown = false) (hwi : workerIdx < s.numWorkers)
    (hstale : s.latestBufferedHeight > currentLBH) :
    enqueueBlock s height workerIdx =
      .ok ([Event.fetchStart workerIdx height],
           [⟨height, workerIdx, s.latestBufferedHeight⟩]) ∧
    processBlockTask workerIdx height s.latestBufferedHeight currentLBH
      (.ok header) preResult procResult postResult = [] := by
  constructor
  · simp [enqueueBlock, hrun, hwi]
  · simp [processBlockTask, hstale]

/-- Witness for C1 at a concrete state: counter 100 at submit, reset to 50
before the task runs. -/
theorem fencing_discards_stale_witness :
    enqueueBlock ⟨false, false, 100, 2⟩ 7 0 =
      .ok ([Event.fetchStart 0 7], [⟨7, 0, 100⟩]) ∧
    processBlockTask 0 7 100 50 (.ok ⟨7⟩) (fun _ => .ok ())
      (.ok ⟨false, none⟩) (fun _ _ => .ok ()) = [] :=
  fencing_discards_stale ⟨false, false, 100, 2⟩ 7 0 50 ⟨7⟩ (fun _ => .ok ())
    (.ok ⟨false, none⟩) (fun _ _ => .ok ()) rfl (by decide) (by decide)

/-- C2: after `onApplicationShutdown` the shutdown flag is set, the queue has
been aborted, each pool index received exactly one terminate call (and no other
index received any), and a subsequent assignment performs no worker call and
submits nothing. -/
theorem onApplicationShutdown_correct (s : DState) :
    (onApplicationShutdown s).1.isShutdown = true ∧
    (onApplicationShutdown s).1.queueAborted = true ∧
    (∀ w, ((onApplicationShutdown s).2.count (Event.terminate w)) =
      if w < s.numWorkers then 1 else 0) ∧
    (∀ height workerIdx,
      enqueueBlock (onApplicationShutdown s).1 height workerIdx = .ok ([], [])) := by
  refine ⟨rfl, rfl, fun w => ?_, fun height workerIdx => ?_⟩
  · simpa [onApplicationShutdown] using count_terminate_range s.numWorkers w
  · simp [enqueueBlock, onApplicationShutdown]

/-- C8: a batch containing a non-numeric work item is rejected with the
assertion message and assigns no work. -/
theorem enqueueBlocks_rejects_blocks (s : DState)
    (statuses : List WorkerStatusResponse) (rand : Nat)
    (heights : List WorkItem) (lbh : Option Nat)
    (hbad : heights.all isNum = false) :
    enqueueBlocks s statuses rand heights lbh =
      .error "Worker block dispatcher only supports enqueuing numbers, not blocks." ∧
    subsOf (enqueueBlocks s statuses rand heights lbh) = [] := by
  constructor
  · simp [enqueueBlocks, hbad]
  · simp [subsOf, enqueueBlocks, hbad]

/-- Witness for C8: a batch holding a pre-materialized block payload. -/
theorem enqueueBlocks_rejects_blocks_witness :
    enqueueBlocks ⟨false, false, 0, 1⟩ [⟨1, 0⟩] 0 [WorkItem.block 9] none =
      .error "Worker block dispatcher only supports enqueuing numbers, not blocks." ∧
    subsOf (enqueueBlocks ⟨false, false, 0, 1⟩ [⟨1, 0⟩] 0 [WorkItem.block 9] none) = [] :=
  enqueueBlocks_rejects_blocks ⟨false, false, 0, 1⟩ [⟨1, 0⟩] 0 [WorkItem.block 9]
    none (by decide)

/-- C9: with a defined, positive worker count the queue is built with capacity
`workers * batchSize * 2` and concurrency exactly 1; with an undefined or
non-positive worker count the assertion fails. -/
theorem initAutoQueue_config (b : Int) (t : Option Nat) (nm : Option String) :
    (∀ w : Int, 1 ≤ w →
      initAutoQueue (some w) b t nm = .ok ⟨w * b * 2, 1, t, nm⟩) ∧
    (∀ w : Int, w ≤ 0 →
      initAutoQueue (some w) b t nm =
        .error "Number of workers must be greater than 0") ∧
    initAutoQueue none b t nm = .error "Number of workers must be greater than 0" := by
  refine ⟨fun w hw => ?_, fun w hw => ?_, rfl⟩
  · simp only [initAutoQueue]
    rw [if_pos (show w > 0 by omega)]
  · simp only [initAutoQueue]
    rw [if_neg (show ¬w > 0 by omega)]

/-- Witness for C9: four workers with batch size ten give capacity eighty;
zero workers fail the assertion. -/
theorem initAutoQueue_config_witness :
    initAutoQueue (some 4) 10 none none = .ok ⟨80, 1, none, none⟩ ∧
    initAutoQueue (some 0) 10 none none =
      .error "Number of workers must be greater than 0" :=
  ⟨(initAutoQueue_config 10 none none).1 4 (by decide),
   (initAutoQueue_config 10 none none).2.1 0 (by decide)⟩

/-- C5: a non-empty all-numeric batch is assigned with the single worker index
the load balancer returned: one fetch start and one submission per height, in the
batch's order, all to worker `w`, all fenced with the pre-update counter value;
the counter is then updated and the queue-size event emitted. -/
theorem enqueueBlocks_batch (s : DState) (statuses : List WorkerStatusResponse)
    (rand : Nat) (heights : List WorkItem) (lbh : Option Nat) (w : Nat)
    (hall : heights.all isNum = true) (hne : heights ≠ [])
    (hrun : s.isShutdown = false)
    (hw : getNextWorkerIndex statuses rand = some w) (hwi : w < s.numWorkers) :
    enqueueBlocks s statuses rand heights lbh =
      .ok ({s with latestBufferedHeight :=
              specNewBufferedHeight s.latestBufferedHeight heights lbh},
           (heights.map (fun h => Event.fetchStart w (theNum h))) ++
             [Event.emitQueueSize],
           heights.map (fun h => ⟨theNum h, w, s.latestBufferedHeight⟩)) := by
  have hbyp :
      (match lbh with
        | some n => if n ≠ 0 ∧ heights.isEmpty then [WorkItem.num n] else heights
        | none => heights) = heights := by
    cases lbh with
    | none => rfl
    | some n =>
      have hemp : heights.isEmpty = false := by
        cases heights with
        | nil => exact absurd rfl hne
        | cons a t => rfl
      simp [hemp]
  simp only [enqueueBlocks, hall, hbyp, hw, if_true,
    enqueueAll_ok s (heights.map theNum) w hrun hwi, List.map_map,
    specNewBufferedHeight]
  rfl

/-- Witness for C5: batch `[10, 11]` against a two-worker pool whose balancer
picked worker 1. -/
theorem enqueueBlocks_batch_witness :
    enqueueBlocks ⟨false, false, 5, 2⟩ [⟨1, 3⟩, ⟨2, 1⟩] 0
        [WorkItem.num 10, WorkItem.num 11] none =
      .ok (⟨false, false, 11, 2⟩,
           [Event.fetchStart 1 10, Event.fetchStart 1 11, Event.emitQueueSize],
           [⟨10, 1, 5⟩, ⟨11, 1, 5⟩]) :=
  enqueueBlocks_batch ⟨false, false, 5, 2⟩ [⟨1, 3⟩, ⟨2, 1⟩] 0
    [WorkItem.num 10, WorkItem.num 11] none 1 (by decide) (by decide) rfl
    (by decide) (by decide)

/-- C6 counterexample: an empty batch with supplied latest height 0 assigns no
unit of work (JavaScript truthiness treats 0 as absent), refuting "exactly one
unit of work is assigned". -/
theorem enqueueBlocks_empty_zero_not_one :
    (subsOf (enqueueBlocks ⟨false, false, 100, 2⟩ [⟨1, 0⟩, ⟨2, 0⟩] 0 []
      (some 0))).length ≠ 1 := by decide

/-- C6 (amended): an empty batch with a supplied non-zero latest height is
replaced by the single-element batch of that height: exactly one unit of work is
assigned, at that height. -/
theorem enqueueBlocks_empty_bypass (s : DState)
    (statuses : List WorkerStatusResponse) (rand n w : Nat)
    (hn : n ≠ 0) (hrun : s.isShutdown = false)
    (hw : getNextWorkerIndex statuses rand = some w) (hwi : w < s.numWorkers) :
    enqueueBlocks s statuses rand [] (some n) =
      .ok ({s with latestBufferedHeight := n},
           [Event.fetchStart w n, Event.emitQueueSize],
           [⟨n, w, s.latestBufferedHeight⟩]) := by
  simp only [enqueueBlocks, List.all_nil, List.isEmpty_nil, hn, hw, if_true,
    ne_eq, not_false_eq_true, and_true, if_pos, List.map_cons, List.map_nil,
    theNum, enqueueAll_ok s [n] w hrun hwi]
  rfl

/-- Witness for C6 (amended): `enqueueBlocks([], 42)` assigns exactly height 42. -/
theorem enqueueBlocks_empty_bypass_witness :
    enqueueBlocks ⟨false, false, 5, 1⟩ [⟨1, 0⟩] 0 [] (some 42) =
      .ok (⟨false, false, 42, 1⟩,
           [Event.fetchStart 0 42, Event.emitQueueSize], [⟨42, 0, 5⟩]) :=
  enqueueBlocks_empty_bypass ⟨false, false, 5, 1⟩ [⟨1, 0⟩] 0 42 0 (by decide)
    rfl (by decide) (by decide)

/-- C7: whenever `enqueueBlocks` completes, the counter afterwards is
`latestBufferHeight` when supplied (including 0, by `??`), else the last height
of a non-empty batch, else unchanged. -/
theorem enqueueBlocks_updates_counter (s : DState)
    (statuses : List WorkerStatusResponse) (rand : Nat)
    (heights : List WorkItem) (lbh : Option Nat) (w : Nat)
    (hall : heights.all isNum = true)
    (hw : getNextWorkerIndex statuses rand = some w)
    (hok : s.isShutdown = true ∨ w < s.numWorkers) :
    (stateOf (enqueueBlocks s statuses rand heights lbh)).map
        (fun st => st.latestBufferedHeight) =
      some (specNewBufferedHeight s.latestBufferedHeight heights lbh) := by
  have hall2 : ∀ hsB : List WorkItem, ∃ evs subs,
      enqueueAll s (hsB.map theNum) w = .ok (evs, subs) := by
    intro hsB
    rcases hok with hsd | hwi
    · exact ⟨[], [], enqueueAll_shutdown s (hsB.map theNum) w hsd⟩
    · rcases hsd : s.isShutdown with _ | _
      · exact ⟨_, _, enqueueAll_ok s (hsB.map theNum) w hsd hwi⟩
      · exact ⟨[], [], enqueueAll_shutdown s (hsB.map theNum) w hsd⟩
  cases lbh with
  | some n =>
    rcases hall2 (if n ≠ 0 ∧ heights.isEmpty then [WorkItem.num n] else heights)
      with ⟨evs, subs, hrun⟩
    simp only [enqueueBlocks, hall, if_true, hw, hrun, stateOf,
      specNewBufferedHeight]
    rfl
  | none =>
    rcases hall2 heights with ⟨evs, subs, hrun⟩
    simp only [enqueueBlocks, hall, if_true, hw, hrun, stateOf,
      specNewBufferedHeight]
    rfl

/-- Witness for C7: no latest height supplied, non-empty batch, counter moves to
the last height 11. -/
theorem enqueueBlocks_updates_counter_witness :
    (stateOf (enqueueBlocks ⟨false, false, 5, 2⟩ [⟨1, 3⟩, ⟨2, 1⟩] 0
        [WorkItem.num 10, WorkItem.num 11] none)).map
        (fun st => st.latestBufferedHeight) = some 11 :=
  enqueueBlocks_updates_counter ⟨false, false, 5, 2⟩ [⟨1, 3⟩, ⟨2, 1⟩] 0
    [WorkItem.num 10, WorkItem.num 11] none 1 (by decide) (by decide)
    (Or.inr (by decide))

/-- C10: an empty batch with supplied latest height 0 assigns nothing (the
bypass checks truthiness, so 0 does not trigger it) yet still drives the counter
to 0; any in-flight task whose fencing token is positive then discards its
work. -/
theorem enqueueBlocks_empty_zero (s : DState)
    (statuses : List WorkerStatusResponse) (rand w : Nat)
    (hw : getNextWorkerIndex statuses rand = some w) :
    enqueueBlocks s statuses rand [] (some 0) =
      .ok ({s with latestBufferedHeight := 0}, [Event.emitQueueSize], []) ∧
    (∀ workerIdx height f header preResult procResult postResult, 0 < f →
      processBlockTask workerIdx height f 0 (.ok header)
        preResult procResult postResult = []) := by
  constructor
  · simp [enqueueBlocks, hw, enqueueAll]
  · intro workerIdx height f header preResult procResult postResult hf
    simp [processBlockTask, hf]

/-- Witness for C10: counter 100 reset to 0 by `enqueueBlocks([], 0)`; a task
fenced at 100 then discards. -/
theorem enqueueBlocks_empty_zero_witness :
    enqueueBlocks ⟨false, false, 100, 1⟩ [⟨1, 5⟩] 0 [] (some 0) =
      .ok (⟨false, false, 0, 1⟩, [Event.emitQueueSize], []) ∧
    processBlockTask 0 9 100 0 (.ok ⟨9⟩) (fun _ => .ok ())
      (.ok ⟨false, none⟩) (fun _ _ => .ok ()) = [] :=
  ⟨(enqueueBlocks_empty_zero ⟨false, false, 100, 1⟩ [⟨1, 5⟩] 0 0 (by decide)).1,
   (enqueueBlocks_empty_zero ⟨false, false, 100, 1⟩ [⟨1, 5⟩] 0 0 (by decide)).2
     0 9 100 ⟨9⟩ (fun _ => .ok ()) (.ok ⟨false, none⟩) (fun _ _ => .ok ())
     (by decide)⟩

/-- C3: the task swallows a thrown task-flushed or block-unavailable exception
(no error logged, no exit requested), while any other exception thrown by the
fetch, the worker's process call or either hook is logged once with the height
and produces exactly one `process.exit` request, always with status 1 (non-zero). -/
theorem processBlockTask_error_policy (workerIdx height fenceAtSubmit currentLBH : Nat)
    (fetchResult : Except JsError Header)
    (preResult : Header → Except JsError Unit)
    (procResult : Except JsError ProcessBlockResponse)
    (postResult : Header → ProcessBlockResponse → Except JsError Unit) :
    (∀ e, thrownError fenceAtSubmit currentLBH fetchResult preResult procResult
        postResult = some e → isSwallowed e = true →
      (∀ c, TaskEvent.processExit c ∉ processBlockTask workerIdx height
        fenceAtSubmit currentLBH fetchResult preResult procResult postResult) ∧
      TaskEvent.logError height ∉ processBlockTask workerIdx height
        fenceAtSubmit currentLBH fetchResult preResult procResult postResult) ∧
    (∀ e, thrownError fenceAtSubmit currentLBH fetchResult preResult procResult
        postResult = some e → isSwallowed e = false →
      (processBlockTask workerIdx height fenceAtSubmit currentLBH fetchResult
        preResult procResult postResult).count (TaskEvent.logError height) = 1 ∧
      (processBlockTask workerIdx height fenceAtSubmit currentLBH fetchResult
        preResult procResult postResult).count (TaskEvent.processExit 1) = 1 ∧
      (∀ c, TaskEvent.processExit c ∈ processBlockTask workerIdx height
        fenceAtSubmit currentLBH fetchResult preResult procResult postResult →
        c = 1)) ∧
    (thrownError fenceAtSubmit currentLBH fetchResult preResult procResult
        postResult = none →
      (∀ c, TaskEvent.processExit c ∉ processBlockTask workerIdx height
        fenceAtSubmit currentLBH fetchResult preResult procResult postResult) ∧
      TaskEvent.logError height ∉ processBlockTask workerIdx height
        fenceAtSubmit currentLBH fetchResult preResult procResult postResult) := by
  rcases fetchResult with e | header
  · rcases e with _ | _ | m <;>
      simp [processBlockTask, thrownError, catchHandler, isSwallowed,
        isTaskFlushedError, isBlockUnavailableError]
  · by_cases hf : fenceAtSubmit > currentLBH
    · simp [processBlockTask, thrownError, hf]
    · rcases hpre : preResult header with e | u
      · rcases e with _ | _ | m <;>
          simp [processBlockTask, thrownError, catchHandler, isSwallowed,
            isTaskFlushedError, isBlockUnavailableError, hf, hpre]
      · rcases hproc : procResult with e | resp
        · rcases e with _ | _ | m <;>
            simp [processBlockTask, thrownError, catchHandler, isSwallowed,
              isTaskFlushedError, isBlockUnavailableError, hf, hpre, hproc]
        · rcases hpost : postResult header resp with e | u2
          · rcases e with _ | _ | m <;>
              simp [processBlockTask, thrownError, catchHandler, isSwallowed,
                isTaskFlushedError, isBlockUnavailableError, hf, hpre, hproc,
                hpost]
          · simp [processBlockTask, thrownError, hf, hpre, hproc, hpost]

/-- Witness for C3: an unclassified exception from the worker's process call is
logged and exits once; a block-unavailable exception from the same place is
swallowed. -/
theorem processBlockTask_error_policy_witness :
    (processBlockTask 0 5 10 10 (.ok ⟨5⟩) (fun _ => .ok ())
        (.error (JsError.other "boom")) (fun _ _ => .ok ())).count
      (TaskEvent.processExit 1) = 1 ∧
    TaskEvent.processExit 1 ∉ processBlockTask 0 5 10 10 (.ok ⟨5⟩)
      (fun _ => .ok ()) (.error JsError.blockUnavailable) (fun _ _ => .ok ()) :=
  ⟨((processBlockTask_error_policy 0 5 10 10 (.ok ⟨5⟩) (fun _ => .ok ())
      (.error (JsError.other "boom")) (fun _ _ => .ok ())).2.1
      (JsError.other "boom") rfl rfl).2.1,
   ((processBlockTask_error_policy 0 5 10 10 (.ok ⟨5⟩) (fun _ => .ok ())
      (.error JsError.blockUnavailable) (fun _ _ => .ok ())).1
      JsError.blockUnavailable rfl rfl).1 1⟩

/-- Filtering a list equals filtering its index range and reading the elements
back: the bridge between `statuses.filter` (what the code does) and the set of
pool indices holding the minimum (what the spec talks about). -/
lemma filter_eq_map_filter_range {α : Type} [Inhabited α] (l : List α)
    (p : α → Bool) :
    l.filter p =
      ((List.range l.length).filter (fun i => p (l.getD i default))).map
        (fun i => l.getD i default) := by
  induction l with
  | nil => simp
  | cons a t ih =>
    by_cases hpa : p a = true
    · simp only [List.length_cons, List.range_succ_eq_map, List.filter_cons,
        List.getD_cons_zero, hpa, if_true, List.filter_map, Function.comp_def,
        List.getD_cons_succ, List.map_cons, List.map_map]
      exact congrArg (a :: ·) ih
    · simp only [List.length_cons, List.range_succ_eq_map, List.filter_cons,
        List.getD_cons_zero, hpa, Bool.false_eq_true, if_false, List.filter_map,
        Function.comp_def, List.getD_cons_succ, List.map_map]
      exact ih

/-- C4: when worker thread ids are the pool positions shifted by one (they are
assigned in creation order), `getNextWorkerIndex` returns exactly the `rand`-th
element of the list of pool indices whose backlog is minimal — so the uniform
random draw over `lowest` is a uniform draw over the tied minimum set — and
every index in that set is in range with backlog equal to the minimum. -/
theorem getNextWorkerIndex_min_uniform (statuses : List WorkerStatusResponse)
    (rand : Nat)
    (hthread : ∀ i, i < statuses.length →
      (statuses.getD i default).threadId = i + 1) :
    getNextWorkerIndex statuses rand = (tiedIndices statuses).get? rand ∧
    (∀ idx, idx ∈ tiedIndices statuses →
      idx < statuses.length ∧
      (statuses.getD idx default).toFetchBlocks = minBacklog statuses) := by
  constructor
  · unfold getNextWorkerIndex tiedIndices
    rw [filter_eq_map_filter_range statuses
      (fun st => st.toFetchBlocks == minBacklog statuses)]
    rw [List.get?_map, Option.map_map]
    cases hg : ((List.range statuses.length).filter
        (fun i => (statuses.getD i default).toFetchBlocks ==
          minBacklog statuses)).get? rand with
    | none => rfl
    | some i =>
      have hi := List.get?_mem hg
      have hlt : i < statuses.length :=
        List.mem_range.mp (List.mem_filter.mp hi).1
      show some ((statuses.getD i default).threadId - 1) = some i
      rw [hthread i hlt, Nat.add_sub_cancel]
  · intro idx hidx
    unfold tiedIndices at hidx
    refine ⟨List.mem_range.mp (List.mem_filter.mp hidx).1, ?_⟩
    exact beq_iff_eq.mp (List.mem_filter.mp hidx).2

/-- Witness for C4 on the spec's example pool with backlogs [3,1,1,4] and
thread ids 1..4: the tied minimum set is exactly the pool indices 1 and 2, and
the two possible random draws return them (never the indices with backlog 3
or 4). -/
theorem getNextWorkerIndex_min_uniform_witness :
    getNextWorkerIndex [⟨1, 3⟩, ⟨2, 1⟩, ⟨3, 1⟩, ⟨4, 4⟩] 0 =
      (tiedIndices [⟨1, 3⟩, ⟨2, 1⟩, ⟨3, 1⟩, ⟨4, 4⟩]).get? 0 ∧
    tiedIndices [⟨1, 3⟩, ⟨2, 1⟩, ⟨3, 1⟩, ⟨4, 4⟩] = [1, 2] ∧
    getNextWorkerIndex [⟨1, 3⟩, ⟨2, 1⟩, ⟨3, 1⟩, ⟨4, 4⟩] 0 = some 1 ∧
    getNextWorkerIndex [⟨1, 3⟩, ⟨2, 1⟩, ⟨3, 1⟩, ⟨4, 4⟩] 1 = some 2 :=
  ⟨(getNextWorkerIndex_min_uniform [⟨1, 3⟩, ⟨2, 1⟩, ⟨3, 1⟩, ⟨4, 4⟩] 0
      (by decide)).1,
   by decide, by decide, by decide⟩

end WorkerDispatch
